import Mathlib

/-!
# Verification of the MediMind backend against its specification

This file gives a shallow embedding in Lean 4 of the parts of the
MediMind prescription-management backend that the specification talks
about, and proves (or refutes) the specification's claims about them.

Embedded modules:
* `auth/sessions.py`   — the in-memory session store;
* `auth/hash.py`       — bcrypt password hashing wrappers;
* `scheduler/reminder_scheduler.py` — the per-minute reminder tick;
* `notification/service.py` — email delivery via the Resend HTTP API;
* `prescription/enrichment.py` — missing-field detection and LLM enrichment;
* `prescription/routes.py` — the timings validation done by the HTTP layer.

Python dictionaries are modelled as association lists with first-match
lookup and in-place replacement on assignment (Python dict keys are
unique, so states reachable through the modelled operations have
`Nodup` keys).  External services (bcrypt, the Groq/Tavily clients, the
Resend HTTP endpoint, Mongo lookups) are modelled as oracle parameters:
their responses are inputs to the embedded functions, exactly at the
call sites where the Python code consults them.
-/

namespace MediMind

/-- A Python value as it occurs in the dictionaries this backend
manipulates: strings, lists, booleans and `None`. -/
inductive PyVal where
  | str (s : String)
  | vlist (xs : List PyVal)
  | vbool (b : Bool)
  | vnone
  deriving Inhabited

/-- Python truthiness (`bool(v)`) for the values we model: the empty
string, the empty list, `False` and `None` are falsy. -/
def pyTruthy : PyVal → Bool
  | .str s => !(s == "")
  | .vlist xs => !xs.isEmpty
  | .vbool b => b
  | .vnone => false

/-- Model of `isinstance(v, list)`. -/
def pyIsList : PyVal → Bool
  | .vlist _ => true
  | _ => false

/-- Iterating a Python value: a list yields its elements, a string
yields its one-character substrings, anything else raises `TypeError`
(modelled as `none`). -/
def pyIter : PyVal → Option (List PyVal)
  | .vlist xs => some xs
  | .str s => some (s.data.map fun c => .str (String.mk [c]))
  | _ => none

/-- Python `v == s` for a string literal `s`: only equal strings
compare equal (no implicit conversions). -/
def pyEqStr : PyVal → String → Bool
  | .str t, s => t == s
  | _, _ => false

/-- A Python dict, as an association list (keys unique in any state a
real dict can reach; lookup takes the first match). -/
abbrev Dict := List (String × PyVal)

/-- Model of `d.get(k)` / `d.get(k, None)`. -/
def dget : Dict → String → Option PyVal
  | [], _ => none
  | (k', v) :: rest, k => if k' = k then some v else dget rest k

/-- Model of `d.get(k, default)`. -/
def dgetD (d : Dict) (k : String) (dflt : PyVal) : PyVal :=
  (dget d k).getD dflt

/-- Model of `d[k] = v`: replace the value at `k` in place, or append. -/
def dset : Dict → String → PyVal → Dict
  | [], k, v => [(k, v)]
  | (k', v') :: rest, k, v =>
    if k' = k then (k, v) :: rest else (k', v') :: dset rest k v

/-! ## `auth/sessions.py` — the in-memory session store

`_memory_sessions : Dict[str, tuple[str, datetime]]` maps a session id
to `(user_id, expiry)`.  Time is modelled as an integer (`Int`)
timestamp; `datetime.utcnow()` becomes an explicit `now` argument, one
per call.  `uuid.uuid4()` becomes an explicit `sid` argument. -/

/-- The session store: session id ↦ (user id, expiry). -/
abbrev SessStore := List (String × String × Int)

/-- Model of `SESSION_EXPIRE_SECONDS = 60 * 60 * 24 * 7`. -/
def SESSION_EXPIRE_SECONDS : Int := 60 * 60 * 24 * 7

/-- First-match lookup in the store (`_memory_sessions.get(sid)`). -/
def sessLookup : SessStore → String → Option (String × Int)
  | [], _ => none
  | (k, v) :: rest, k' => if k = k' then some v else sessLookup rest k'

/-- Model of `_memory_sessions[sid] = (uid, exp)`: in-place replace or append. -/
def sessInsert : SessStore → String → String × Int → SessStore
  | [], k, v => [(k, v)]
  | (k', v') :: rest, k, v =>
    if k' = k then (k, v) :: rest else (k', v') :: sessInsert rest k v

/-- Model of `del _memory_sessions[sid]` (a dict holds each key once, so
removing every occurrence from the association list is the same). -/
def sessDelete (st : SessStore) (sid : String) : SessStore :=
  st.filter fun e => e.1 ≠ sid

/-- Model of `_cleanup_expired_sessions`: drop every entry with `exp < now`. -/
def cleanup_expired_sessions (now : Int) (st : SessStore) : SessStore :=
  st.filter fun e => ¬ e.2.2 < now

/-- Model of `create_session(user_id)`: sweep, then store the fresh session id
with expiry `now + SESSION_EXPIRE_SECONDS`; returns (store, sid). -/
def create_session (st : SessStore) (now : Int) (user_id sid : String) :
    SessStore × String :=
  let st' := cleanup_expired_sessions now st
  (sessInsert st' sid (user_id, now + SESSION_EXPIRE_SECONDS), sid)

/-- Model of `get_user_from_session(session_id)`: sweep, look up, and treat a
(now unreachable after the sweep) stale hit as a miss; returns the
updated store and the optional user id. -/
def get_user_from_session (st : SessStore) (now : Int) (sid : String) :
    SessStore × Option String :=
  let st' := cleanup_expired_sessions now st
  match sessLookup st' sid with
  | none => (st', none)
  | some (uid, exp) =>
    if exp < now then (sessDelete st' sid, none) else (st', some uid)

/-- Model of `delete_session(session_id)`. -/
def delete_session (st : SessStore) (sid : String) : SessStore :=
  sessDelete st sid

/-! ## `auth/hash.py` — bcrypt wrappers

`bcrypt.hashpw` and `bcrypt.checkpw` are external library calls,
modelled as oracle parameters over byte lists; `.encode('utf-8')` is
the real UTF-8 encoder, written out below, and `[:72]` is `List.take
72`.  `hashed.decode('utf-8')` is folded into the `hashpw` oracle,
whose result is the hash string the function returns. -/

/-- UTF-8 encoding of one character (the standard 1–4 byte patterns). -/
def utf8Char (c : Char) : List Nat :=
  let n := c.toNat
  if n < 0x80 then [n]
  else if n < 0x800 then
    [0xC0 + n / 64, 0x80 + n % 64]
  else if n < 0x10000 then
    [0xE0 + n / 4096, 0x80 + (n / 64) % 64, 0x80 + n % 64]
  else
    [0xF0 + n / 262144, 0x80 + (n / 4096) % 64, 0x80 + (n / 64) % 64,
      0x80 + n % 64]

/-- Model of `s.encode('utf-8')` as a list of byte values. -/
def utf8Encode (s : String) : List Nat :=
  (s.data.map utf8Char).flatten

/-- Model of `hash_password(password)`: truncate the UTF-8 bytes to 72, then
`bcrypt.hashpw(password_bytes, salt)` (oracle) decoded to a string. -/
def hash_password (hashpw : List Nat → List Nat → String) (salt : List Nat)
    (password : String) : String :=
  let password_bytes := (utf8Encode password).take 72
  hashpw password_bytes salt

/-- Model of `verify_password(password, hashed)`: truncate the UTF-8 bytes to
72, then `bcrypt.checkpw(password_bytes, hashed.encode('utf-8'))`. -/
def verify_password (checkpw : List Nat → List Nat → Bool)
    (password hashed : String) : Bool :=
  let password_bytes := (utf8Encode password).take 72
  checkpw password_bytes (utf8Encode hashed)

/-! ## `scheduler/reminder_scheduler.py` — the reminder tick

Times of day are (hour, minute) pairs; absolute datetimes are `Int`
timestamps (naive UTC).  A value stored in `reminders_sent_today` /
`last_reminder_sent` is either a real `datetime` object or a string;
a string is represented by the outcome of `datetime.fromisoformat` on
it (`goodStr t` parses to the naive timestamp `t`, `badStr` raises
`ValueError`, `emptyStr` is `""`, which is falsy and never parsed). -/

/-- A value found in a schedule's reminder-tracking fields. -/
inductive SentVal where
  | dt (t : Int)
  | goodStr (t : Int)
  | badStr
  | emptyStr
  deriving DecidableEq

/-- Python truthiness of a `SentVal` (`datetime`s and non-empty
strings are truthy). -/
def SentVal.truthy : SentVal → Bool
  | .emptyStr => false
  | _ => true

/-- A schedule document, restricted to the fields the tick reads. -/
structure Schedule where
  medicine_name : String
  dosage : String
  user_id : String
  timings : List String
  custom_times : Option (List (String × String))
  reminders_sent_today : Option (List (String × SentVal))
  last_reminder_sent : Option SentVal
  last_reminder_timing : Option String

/-- A user document, restricted to the fields the tick reads
(`user.get("email")`, `user.get("fcm_token")`). -/
structure UserDoc where
  email : Option String
  fcm_token : Option String

/-- First-match lookup in a string-keyed association list
(`dict.get(k)` for the `custom_times` / `reminders_sent_today` maps). -/
def alistGet {α : Type} : List (String × α) → String → Option α
  | [], _ => none
  | (k, v) :: rest, k' => if k = k' then some v else alistGet rest k'

/-- Model of `m[k] = v` for a string-keyed association list: in-place replace
or append (Mongo's dotted `$set` on the tracking map behaves the same
way). -/
def dsetA {α : Type} : List (String × α) → String → α → List (String × α)
  | [], k, v => [(k, v)]
  | (k', v') :: rest, k, v =>
    if k' = k then (k, v) :: rest else (k', v') :: dsetA rest k v

/-- Model of `DEFAULT_TIMES` from the scheduler module. -/
def DEFAULT_TIMES : List (String × String) :=
  [("morning", "08:00"), ("afternoon", "13:00"),
   ("evening", "18:00"), ("night", "21:00")]

/-- Split a character list on a separator (`s.split(":")`); always
returns at least one group. -/
def splitOnChar (sep : Char) : List Char → List (List Char)
  | [] => [[]]
  | c :: rest =>
    match splitOnChar sep rest with
    | [] => [[c]]
    | g :: gs => if c = sep then [] :: g :: gs else (c :: g) :: gs

/-- Strip leading and trailing whitespace (what `int(s)` does before
parsing). -/
def stripWs (l : List Char) : List Char :=
  ((l.dropWhile Char.isWhitespace).reverse.dropWhile Char.isWhitespace
    ).reverse

/-- Model of `int(s)` over the characters of `s`: optional surrounding
whitespace, an optional sign, then at least one digit (`none` models
`ValueError`). -/
def pyIntChars (l : List Char) : Option Int :=
  match stripWs l with
  | [] => none
  | c :: rest =>
    let neg := c = '-'
    let digits := if c = '-' ∨ c = '+' then rest else c :: rest
    if !digits.isEmpty ∧ digits.all Char.isDigit then
      let mag : Int :=
        Int.ofNat (digits.foldl (fun a d => a * 10 + (d.toNat - 48)) 0)
      some (if neg then -mag else mag)
    else none

/-- Model of `int(s)`. -/
def pyInt (s : String) : Option Int :=
  pyIntChars s.data

/-- The `try` block of `_should_send_now`: split on `":"`, `int` the
first two parts; `none` models the caught `ValueError`/`IndexError`. -/
def parseHM (s : String) : Option (Int × Int) :=
  match splitOnChar ':' s.data with
  | [] => none
  | [_] => none
  | p0 :: p1 :: _ =>
    match pyIntChars p0, pyIntChars p1 with
    | some h, some m => some (h, m)
    | _, _ => none

/-- Model of `_get_scheduled_time(schedule, timing_period)`. -/
def get_scheduled_time (schedule : Schedule) (timing_period : String) :
    String :=
  let custom_times := schedule.custom_times.getD []
  (alistGet custom_times timing_period).getD
    ((alistGet DEFAULT_TIMES timing_period).getD "08:00")

/-- Model of `_should_send_now(schedule, timing_period, now_local)`: parse the
scheduled time (falling back to the period's default on a malformed
custom time) and compare minute-of-day values within ±2 minutes. -/
def should_send_now (schedule : Schedule) (timing_period : String)
    (nowHour nowMinute : Int) : Bool :=
  let scheduled_time_str := get_scheduled_time schedule timing_period
  let hm :=
    match parseHM scheduled_time_str with
    | some hm => hm
    | none =>
      (parseHM ((alistGet DEFAULT_TIMES timing_period).getD "08:00")).getD
        (8, 0)
  let sched_total := hm.1 * 60 + hm.2
  let current_total := nowHour * 60 + nowMinute
  (current_total - sched_total).natAbs ≤ 2

/-- Lines 113–125 of `check_and_send_reminders`: the per-timing dedup
check against `reminders_sent_today`. -/
def sentTodayHit (schedule : Schedule) (timing_period : String)
    (todayStart : Int) : Bool :=
  match alistGet (schedule.reminders_sent_today.getD []) timing_period with
  | none => false
  | some v =>
    if v.truthy then
      match v with
      | .dt t => todayStart ≤ t
      | .goodStr t => todayStart ≤ t
      | _ => false
    else false

/-- Lines 127–132 of `check_and_send_reminders`: the legacy dedup
check against `last_reminder_sent` / `last_reminder_timing`. -/
def legacyHit (schedule : Schedule) (timing_period : String)
    (todayStart : Int) : Bool :=
  match schedule.last_reminder_sent with
  | none => false
  | some last_sent =>
    if last_sent.truthy ∧ schedule.last_reminder_timing = some timing_period
    then
      match last_sent with
      | .dt t => todayStart ≤ t
      | _ => false
    else false

/-- What one `(schedule, timing_period)` iteration of the tick did:
whether an email / a push was attempted, and the `$set` update written
to the schedule document (`none` = no write). -/
structure TimingResult where
  emailAttempted : Bool
  pushAttempted : Bool
  update : Option (Int × String)
  deriving DecidableEq

/-- The iteration did nothing (a `continue` before the send calls). -/
def TimingResult.skip : TimingResult :=
  ⟨false, false, none⟩

/-- One `(schedule, timing_period)` iteration of
`check_and_send_reminders` (lines 105–188).  `user` is the Mongo
lookup's answer, `emailOk` / `pushOk` are the results of the
`send_medication_reminder` / `send_medication_reminder_push` calls,
consulted only if the corresponding call is reached. -/
def processTiming (schedule : Schedule) (timing_period : String)
    (nowHour nowMinute : Int) (todayStart nowNaive : Int)
    (user : Option UserDoc) (emailOk pushOk : Bool) : TimingResult :=
  if ¬ should_send_now schedule timing_period nowHour nowMinute then
    .skip
  else if sentTodayHit schedule timing_period todayStart then
    .skip
  else if legacyHit schedule timing_period todayStart then
    .skip
  else
    match user with
    | none => .skip
    | some u =>
      match u.email with
      | none => .skip
      | some user_email =>
        if user_email = "" then .skip
        else
          let email_success := emailOk
          let push_attempted := (u.fcm_token.getD "") ≠ ""
          let push_success := push_attempted && pushOk
          if email_success || push_success then
            ⟨true, push_attempted, some (nowNaive, timing_period)⟩
          else
            ⟨true, push_attempted, none⟩

/-- Applying the `$set` of lines 176–183 to a schedule document:
`reminders_sent_today.<period> = now`, `last_reminder_sent = now`,
`last_reminder_timing = period`. -/
def applyUpdate (schedule : Schedule) (nowNaive : Int) (period : String) :
    Schedule :=
  { schedule with
      reminders_sent_today :=
        some (dsetA (schedule.reminders_sent_today.getD []) period
          (.dt nowNaive)),
      last_reminder_sent := some (.dt nowNaive),
      last_reminder_timing := some period }

/-! ## `notification/service.py` — email via the Resend HTTP API

`requests.post` is an oracle: it either returns a response (a status
code plus what its body is, as far as the 200/201 branch can observe
it), or raises `Timeout`, `ConnectionError`, or some other exception.
All exception paths in `send_email` are caught and turned into
`False`. -/

/-- What the success branch can observe of a response body:
`response.json()` yields a JSON object (a Python `dict`, so
`data.get(...)` works), yields a non-object JSON value (`None`, a
list, a string or a number — then `data.get` raises
`AttributeError`), or raises because the body is not JSON at all. -/
inductive RespBody where
  | jsonObject
  | jsonNonObject
  | notJson
  deriving DecidableEq

/-- The outcome of the `requests.post` call to the Resend API. -/
inductive HttpOutcome where
  | resp (status : Nat) (body : RespBody)
  | timeout
  | connError
  | otherError
  deriving DecidableEq

/-- Model of `send_email(to_email, subject, body, html_body)`, with the module
configuration (`EMAIL_ENABLED`, `RESEND_API_KEY`) passed explicitly
and the HTTP call's outcome as an oracle.  Returns
`(api_call_made, result)`. -/
def send_email (emailEnabled : Bool) (apiKey : String)
    (outcome : HttpOutcome) : Bool × Bool :=
  if ¬ emailEnabled then (false, false)
  else if apiKey = "" then (false, false)
  else
    match outcome with
    | .resp status body =>
      if status = 200 ∨ status = 201 then
        -- `data = response.json()` and then `data.get('id', 'N/A')`
        -- run before `return True`; a non-JSON body raises in the
        -- former, a JSON non-object body raises `AttributeError` in
        -- the latter, and the outer `except Exception` returns False.
        match body with
        | .jsonObject => (true, true)
        | .jsonNonObject => (true, false)
        | .notJson => (true, false)
      else (true, false)
    | .timeout => (true, false)
    | .connError => (true, false)
    | .otherError => (true, false)

/-- Model of `send_medication_reminder(...)`: builds the subject and bodies and
returns exactly `send_email(to_email, subject, body, html_body)`. -/
def send_medication_reminder (emailEnabled : Bool) (apiKey : String)
    (outcome : HttpOutcome) : Bool × Bool :=
  send_email emailEnabled apiKey outcome

/-! ## `prescription/enrichment.py` — missing fields and enrichment -/

/-- Model of `detect_missing_information(medicine)`. -/
def detect_missing_information (medicine : Dict) : List String :=
  let dosageMissing :=
    let dosage := dgetD medicine "dosage" (.str "")
    !pyTruthy dosage ||
      (pyEqStr dosage "As prescribed" || pyEqStr dosage "N/A" ||
        pyEqStr dosage "Unknown" || pyEqStr dosage "unknown" ||
        pyEqStr dosage "")
  let frequencyMissing :=
    let frequency := dgetD medicine "frequency" (.str "")
    !pyTruthy frequency ||
      (pyEqStr frequency "As prescribed" || pyEqStr frequency "N/A" ||
        pyEqStr frequency "Unknown" || pyEqStr frequency "unknown" ||
        pyEqStr frequency "")
  let timingsMissing :=
    let timings := dgetD medicine "timings" (.vlist [])
    !pyTruthy timings || !pyIsList timings ||
      (match timings with | .vlist xs => xs.isEmpty | _ => false)
  (if dosageMissing then ["dosage"] else []) ++
    (if frequencyMissing then ["frequency"] else []) ++
    (if timingsMissing then ["timings"] else [])

/-- Model of `valid_timings` as it appears in `enrich_medicine_with_llm` and in
`prescription/routes.py`. -/
def valid_timings : List String :=
  ["morning", "afternoon", "evening", "night"]

/-- Is the Python value one of the four valid timing strings?  (This
is `t in valid_timings` for a value `t` of any type.) -/
def isValidTiming (v : PyVal) : Bool :=
  pyEqStr v "morning" || pyEqStr v "afternoon" ||
    pyEqStr v "evening" || pyEqStr v "night"

mutual
/-- Model of `str(v)` (f-string interpolation); Python reprs the
elements of a list, quoting strings. -/
def pyStr : PyVal → String
  | .str s => s
  | .vbool b => if b then "True" else "False"
  | .vnone => "None"
  | .vlist xs => "[" ++ pyStrList xs ++ "]"
def pyStrRepr : PyVal → String
  | .str s => "\x27" ++ s ++ "\x27"
  | .vbool b => if b then "True" else "False"
  | .vnone => "None"
  | .vlist xs => "[" ++ pyStrList xs ++ "]"
def pyStrList : List PyVal → String
  | [] => ""
  | [x] => pyStrRepr x
  | x :: y :: xs => pyStrRepr x ++ ", " ++ pyStrList (y :: xs)
end

/-- Model of `enrichment_data.get(k) != "Unable to determine"`: `None` (a
missing key) and every non-string value compare unequal. -/
def pyNeqUTD : Option PyVal → Bool
  | some v => !pyEqStr v "Unable to determine"
  | none => true

/-- Model of `", ".join(xs)` over values known to be strings (the filter by
`valid_timings` guarantees it). -/
def pyJoinComma (xs : List PyVal) : String :=
  String.intercalate ", " (xs.filterMap fun v =>
    match v with | .str s => some s | _ => none)

/-- One of the two `if "<field>" in missing_fields and
enrichment_data.get("<field>") != "Unable to determine"` blocks (lines
316–324), acting on the accumulator (current dict, `was_enriched`,
`enrichment_notes`).  `none` models the `KeyError` raised by
`enrichment_data["<field>"]` when the key is absent (then `.get`
returned `None`, which is `!= "Unable to determine"`). -/
def enrichField (field : String) (missing_fields : List String)
    (data : Dict) (acc : Dict × Bool × List String) :
    Option (Dict × Bool × List String) :=
  if field ∈ missing_fields ∧ pyNeqUTD (dget data field) then
    match dget data field with
    | none => none
    | some v =>
      some (dset acc.1 field v, true, acc.2.2 ++ [field ++ ": " ++ pyStr v])
  else some acc

/-- Model of the `timings` block (lines 326–332): iterate the LLM's
`timings` value, keep the entries in `valid_timings`, and replace the
field only when something remains.  `none` models the `TypeError` from
iterating a truthy non-iterable value. -/
def enrichTimings (missing_fields : List String) (data : Dict)
    (acc : Dict × Bool × List String) : Option (Dict × Bool × List String) :=
  if "timings" ∈ missing_fields ∧ pyTruthy (dgetD data "timings" .vnone)
  then
    match pyIter (dgetD data "timings" .vnone) with
    | none => none
    | some elems =>
      let llm_timings := elems.filter isValidTiming
      if !llm_timings.isEmpty then
        some (dset acc.1 "timings" (.vlist llm_timings), true,
          acc.2.2 ++ ["timings: " ++ pyJoinComma llm_timings])
      else some acc
  else some acc

/-- Model of the metadata block (lines 334–341): when anything was
enriched, add the four `enrichment_*` keys. -/
def enrichMeta (data : Dict) (acc : Dict × Bool × List String) :
    Dict × Bool :=
  if acc.2.1 then
    let e1 := dset acc.1 "enriched" (.vbool true)
    let e2 := dset e1 "enrichment_confidence"
      (dgetD data "confidence" (.str "medium"))
    let e3 := dset e2 "enrichment_reasoning" (dgetD data "reasoning" (.str ""))
    let e4 := dset e3 "enrichment_notes"
      (.str ("AI-enriched: " ++ String.intercalate ", " acc.2.2))
    (e4, true)
  else (acc.1, false)

/-- The body of `enrich_medicine_with_llm` after the LLM response has
been parsed into `data` (lines 310–341): start from a copy of the
medicine, apply the dosage, frequency and timings blocks in order, and
finish with the metadata block.  `none` models an uncaught exception
inside the `try` block. -/
def enrichBody (medicine : Dict) (missing_fields : List String)
    (data : Dict) : Option (Dict × Bool) :=
  match enrichField "dosage" missing_fields data (medicine, false, []) with
  | none => none
  | some acc1 =>
    match enrichField "frequency" missing_fields data acc1 with
    | none => none
    | some acc2 =>
      match enrichTimings missing_fields data acc2 with
      | none => none
      | some acc3 => some (enrichMeta data acc3)

/-- Model of `enrich_medicine_with_llm(medicine, missing_fields,
search_context)`.  `groqEnabled` is `groq_client is not None`;
`response` is the parsed JSON of the LLM's answer, `none` when the API
call or `json.loads` raises.  Any exception inside the `try` block is
caught and `(medicine, False)` returned. -/
def enrich_medicine_with_llm (groqEnabled : Bool) (medicine : Dict)
    (missing_fields : List String) (response : Option Dict) : Dict × Bool :=
  if ¬ groqEnabled then (medicine, false)
  else
    match response with
    | none => (medicine, false)
    | some data =>
      match enrichBody medicine missing_fields data with
      | some r => r
      | none => (medicine, false)

/-- The per-medicine statistics `enrich_medicines` accumulates. -/
structure EnrichStats where
  enabled : Bool
  enriched_count : Nat
  skipped_count : Nat
  failed_count : Nat
  deriving DecidableEq

/-- One iteration of the loop in `enrich_medicines`, given the
combined search+LLM pipeline as an oracle; returns the output
medicine, the stats deltas, and the external call made (if any). -/
def enrichStep (pipeline : Dict → List String → Dict × Bool)
    (medicine : Dict) : Dict × (Nat × Nat × Nat) × List (Dict × List String) :=
  let missing_fields := detect_missing_information medicine
  if missing_fields.isEmpty then
    (medicine, (0, 1, 0), [])
  else
    let r := pipeline medicine missing_fields
    if r.2 then
      (r.1, (1, 0, 0), [(medicine, missing_fields)])
    else
      (r.1, (0, 0, 1), [(medicine, missing_fields)])

/-- The `for medicine in medicines` loop of `enrich_medicines`,
written as structural recursion (the counters commute, so combining
head and tail contributions equals the left-to-right accumulation). -/
def enrichLoop (pipeline : Dict → List String → Dict × Bool) :
    List Dict → List Dict × (Nat × Nat × Nat) × List (Dict × List String)
  | [] => ([], (0, 0, 0), [])
  | medicine :: rest =>
    let r := enrichStep pipeline medicine
    let rs := enrichLoop pipeline rest
    (r.1 :: rs.1,
      (r.2.1.1 + rs.2.1.1, r.2.1.2.1 + rs.2.1.2.1, r.2.1.2.2 + rs.2.1.2.2),
      r.2.2 ++ rs.2.2)

/-- Model of `enrich_medicines(medicines)`.  `pipeline` is the external
search-then-LLM step (lines 383–390), recorded in the returned trace;
the trace lists each medicine (with its missing fields) for which the
web search and the LLM were invoked, in order. -/
def enrich_medicines (groqEnabled : Bool)
    (pipeline : Dict → List String → Dict × Bool) (medicines : List Dict) :
    List Dict × EnrichStats × List (Dict × List String) :=
  if ¬ groqEnabled then (medicines, ⟨false, 0, 0, 0⟩, [])
  else
    let r := enrichLoop pipeline medicines
    (r.1, ⟨true, r.2.1.1, r.2.1.2.1, r.2.1.2.2⟩, r.2.2)

/-! ## `prescription/routes.py` — timings validation

Only the two places that write a schedule's `timings` field are
modelled: the cleaning done in `upload_prescription` (lines 270–287)
and the validation in `update_schedule` (lines 443–451). -/

/-- Lines 281–287 of `upload_prescription`: the `timings` value taken
from a parsed medicine (`medicine.get("timings", [])`) is forced to a
non-empty list of valid timing strings, substituting `["morning"]`. -/
def cleanUploadTimings (timings : PyVal) : List PyVal :=
  if !pyTruthy timings || !pyIsList timings then [.str "morning"]
  else
    match timings with
    | .vlist xs =>
      let filtered := xs.filter isValidTiming
      if filtered.isEmpty then [.str "morning"] else filtered
    | _ => [.str "morning"]

/-- Lines 443–451 of `update_schedule`: filter the supplied timings
(a `List[str]` by the request model) to the valid set, and reject the
update with HTTP 400 when nothing remains.  `Except.error 400` models
the raised `HTTPException(status_code=400)`. -/
def updateScheduleTimings (timings : List String) :
    Except Nat (List String) :=
  let cleaned_timings := timings.filter (fun t => t ∈ valid_timings)
  if cleaned_timings.isEmpty then .error 400
  else .ok cleaned_timings

/-! ## Claim-side definitions

These state the specification's wording, to be compared with the
embedded code. -/

/-- The default minute-of-day the specification gives each period:
morning 08:00, afternoon 13:00, evening 18:00, night 21:00, and 08:00
for an unknown period. -/
def claimDefaultTotal (timing_period : String) : Int :=
  if timing_period = "morning" then 8 * 60
  else if timing_period = "afternoon" then 13 * 60
  else if timing_period = "evening" then 18 * 60
  else if timing_period = "night" then 21 * 60
  else 8 * 60

/-- The configured minute-of-day per the specification: the schedule's
`custom_times` entry for the period when present and parseable as
`H:M`, otherwise the period's default. -/
def claimConfiguredTotal (schedule : Schedule) (timing_period : String) :
    Int :=
  match alistGet (schedule.custom_times.getD []) timing_period with
  | some s =>
    match parseHM s with
    | some (h, m) => h * 60 + m
    | none => claimDefaultTotal timing_period
  | none => claimDefaultTotal timing_period

/-- The specification's dedup condition for claim C1: the
`reminders_sent_today` map records a send for the period at or after
the start of the current UTC day, or the legacy fields
`last_reminder_sent` / `last_reminder_timing` do. -/
def recordedSentToday (schedule : Schedule) (timing_period : String)
    (todayStart : Int) : Prop :=
  (∃ t, (alistGet (schedule.reminders_sent_today.getD []) timing_period =
        some (.dt t) ∨
      alistGet (schedule.reminders_sent_today.getD []) timing_period =
        some (.goodStr t)) ∧
    todayStart ≤ t) ∨
  (∃ t, schedule.last_reminder_sent = some (.dt t) ∧ todayStart ≤ t ∧
    schedule.last_reminder_timing = some timing_period)

/-- The four metadata keys `enrich_medicine_with_llm` may add. -/
def enrichmentMetaKeys : List String :=
  ["enriched", "enrichment_confidence", "enrichment_reasoning",
    "enrichment_notes"]

/-! ## Basic lemmas about the dictionary model -/

theorem dget_dset (d : Dict) (k k' : String) (v : PyVal) :
    dget (dset d k v) k' = if k = k' then some v else dget d k' := by
  induction d with
  | nil => simp [dset, dget]
  | cons hd tl ih =>
    obtain ⟨hk, hv⟩ := hd
    by_cases h1 : hk = k
    · subst h1
      by_cases h2 : hk = k' <;> simp [dset, dget, h2, *]
    · by_cases h2 : hk = k'
      · subst h2
        have : ¬ k = hk := fun h => h1 h.symm
        simp [dset, dget, h1, this]
      · simp [dset, dget, h1, h2, ih]

theorem dget_dset_same (d : Dict) (k : String) (v : PyVal) :
    dget (dset d k v) k = some v := by
  simp [dget_dset]

theorem dget_dset_other (d : Dict) (k k' : String) (v : PyVal) (h : k ≠ k') :
    dget (dset d k v) k' = dget d k' := by
  simp [dget_dset, h]

/-! ## Lemmas about the session store -/

theorem sessLookup_eq_none_of_absent (st : SessStore) (k : String)
    (h : ∀ e ∈ st, e.1 ≠ k) : sessLookup st k = none := by
  induction st with
  | nil => rfl
  | cons hd tl ih =>
    have hk : hd.1 ≠ k := h hd (List.mem_cons_self hd tl)
    obtain ⟨k0, v0⟩ := hd
    simp only [sessLookup]
    rw [if_neg hk]
    exact ih fun e he => h e (List.mem_cons_of_mem _ he)

theorem mem_sessInsert (st : SessStore) (k : String) (v : String × Int)
    (e : String × String × Int) (h : e ∈ sessInsert st k v) :
    e = (k, v) ∨ e ∈ st := by
  induction st with
  | nil => simpa [sessInsert] using h
  | cons hd tl ih =>
    obtain ⟨k0, v0⟩ := hd
    simp only [sessInsert] at h
    by_cases hk : k0 = k
    · rw [if_pos hk] at h
      rcases List.mem_cons.mp h with h1 | h1
      · exact Or.inl h1
      · exact Or.inr (List.mem_cons_of_mem _ h1)
    · rw [if_neg hk] at h
      rcases List.mem_cons.mp h with h1 | h1
      · exact Or.inr (by simp [h1])
      · rcases ih h1 with h2 | h2
        · exact Or.inl h2
        · exact Or.inr (List.mem_cons_of_mem _ h2)

theorem mem_cleanup_bound (now : Int) (st : SessStore)
    (e : String × String × Int) (h : e ∈ cleanup_expired_sessions now st) :
    now ≤ e.2.2 := by
  unfold cleanup_expired_sessions at h
  have h2 := (List.mem_filter.mp h).2
  simpa [not_lt] using h2

theorem sessLookup_filter_none (p : String × String × Int → Bool)
    (st : SessStore) (k : String) (h : sessLookup st k = none) :
    sessLookup (st.filter p) k = none := by
  induction st with
  | nil => exact h
  | cons hd tl ih =>
    obtain ⟨k0, v0⟩ := hd
    simp only [sessLookup] at h
    by_cases hk : k0 = k
    · rw [if_pos hk] at h; simp at h
    · rw [if_neg hk] at h
      rw [List.filter_cons]
      cases hp : p (k0, v0)
      · rw [if_neg (by simp)]
        exact ih h
      · rw [if_pos rfl]
        simp only [sessLookup]
        rw [if_neg hk]
        exact ih h

theorem sessLookup_filter_of_some (p : String × String × Int → Bool)
    (st : SessStore) (k : String) (v : String × Int)
    (hnd : (st.map Prod.fst).Nodup) (h : sessLookup st k = some v) :
    sessLookup (st.filter p) k = if p (k, v) then some v else none := by
  induction st with
  | nil => simp [sessLookup] at h
  | cons hd tl ih =>
    obtain ⟨k0, v0⟩ := hd
    simp only [List.map_cons, List.nodup_cons] at hnd
    obtain ⟨hk0, hnd2⟩ := hnd
    simp only [sessLookup] at h
    by_cases hk : k0 = k
    · subst hk
      rw [if_pos rfl] at h
      have hv : v0 = v := by simpa using h
      subst hv
      have habs : sessLookup tl k0 = none := by
        refine sessLookup_eq_none_of_absent tl k0 fun e he hek => ?_
        exact hk0 (hek ▸ List.mem_map_of_mem Prod.fst he)
      rw [List.filter_cons]
      cases hp : p (k0, v0)
      · rw [if_neg (by simp), if_neg (by simp)]
        exact sessLookup_filter_none p tl k0 habs
      · rw [if_pos rfl, if_pos rfl]
        simp [sessLookup]
    · rw [if_neg hk] at h
      rw [List.filter_cons]
      cases hp : p (k0, v0)
      · rw [if_neg (by simp)]
        exact ih hnd2 h
      · rw [if_pos rfl]
        simp only [sessLookup]
        rw [if_neg hk]
        exact ih hnd2 h

theorem sessLookup_filter_sessInsert (p : String × String × Int → Bool)
    (st : SessStore) (k : String) (v : String × Int) (hp : p (k, v) = true) :
    sessLookup ((sessInsert st k v).filter p) k = some v := by
  induction st with
  | nil =>
    simp only [sessInsert, List.filter_cons, hp, if_pos rfl, List.filter_nil]
    simp [sessLookup]
  | cons hd tl ih =>
    obtain ⟨k0, v0⟩ := hd
    simp only [sessInsert]
    by_cases hk : k0 = k
    · rw [if_pos hk]
      simp only [List.filter_cons, hp, if_pos rfl]
      simp [sessLookup]
    · rw [if_neg hk]
      rw [List.filter_cons]
      cases hp0 : p (k0, v0)
      · rw [if_neg (by simp)]
        exact ih
      · rw [if_pos rfl]
        simp only [sessLookup]
        rw [if_neg hk]
        exact ih

/-- Case equation: the looked-up session id is absent after the sweep. -/
theorem get_user_from_session_of_none (st : SessStore) (now : Int)
    (sid : String)
    (h : sessLookup (cleanup_expired_sessions now st) sid = none) :
    get_user_from_session st now sid =
      (cleanup_expired_sessions now st, none) := by
  simp only [get_user_from_session, h]

/-- Case equation: the session is found after the sweep and has
already expired. -/
theorem get_user_from_session_of_expired (st : SessStore) (now : Int)
    (sid uid : String) (exp : Int)
    (h : sessLookup (cleanup_expired_sessions now st) sid = some (uid, exp))
    (hexp : exp < now) :
    get_user_from_session st now sid =
      (sessDelete (cleanup_expired_sessions now st) sid, none) := by
  simp only [get_user_from_session, h]
  rw [if_pos hexp]

/-- Case equation: the session is found after the sweep and is live. -/
theorem get_user_from_session_of_live (st : SessStore) (now : Int)
    (sid uid : String) (exp : Int)
    (h : sessLookup (cleanup_expired_sessions now st) sid = some (uid, exp))
    (hexp : ¬ exp < now) :
    get_user_from_session st now sid =
      (cleanup_expired_sessions now st, some uid) := by
  simp only [get_user_from_session, h]
  rw [if_neg hexp]

/-! ## Claim C4 — session expiry sweep -/

/-- C4.  Every call to `create_session` or `get_user_from_session`
first removes all expired entries, so immediately afterwards every
session remaining in `_memory_sessions` has expiry ≥ the current time;
`get_user_from_session` returns `None` for a session id absent from
the store or expired (removing the expired entry) and the stored user
id otherwise. -/
theorem session_sweep_and_lookup (st : SessStore) (now : Int)
    (uid sid sidq : String) (hnd : (st.map Prod.fst).Nodup) :
    (∀ e ∈ (create_session st now uid sid).1, now ≤ e.2.2) ∧
    (∀ e ∈ (get_user_from_session st now sidq).1, now ≤ e.2.2) ∧
    (sessLookup st sidq = none →
      (get_user_from_session st now sidq).2 = none) ∧
    (∀ u exp, sessLookup st sidq = some (u, exp) →
      (exp < now →
        (get_user_from_session st now sidq).2 = none ∧
        sessLookup (get_user_from_session st now sidq).1 sidq = none) ∧
      (now ≤ exp → (get_user_from_session st now sidq).2 = some u)) := by
  refine ⟨?_, ?_, ?_, ?_⟩
  · intro e he
    rcases mem_sessInsert _ _ _ e he with h1 | h1
    · subst h1
      simp only [SESSION_EXPIRE_SECONDS]
      omega
    · exact mem_cleanup_bound now st e h1
  · intro e he
    rcases hl : sessLookup (cleanup_expired_sessions now st) sidq with
      _ | ⟨u, exp⟩
    · rw [get_user_from_session_of_none st now sidq hl] at he
      exact mem_cleanup_bound now st e he
    · by_cases hexp : exp < now
      · rw [get_user_from_session_of_expired st now sidq u exp hl hexp] at he
        exact mem_cleanup_bound now st e ((List.mem_filter.mp he).1)
      · rw [get_user_from_session_of_live st now sidq u exp hl hexp] at he
        exact mem_cleanup_bound now st e he
  · intro h
    rw [get_user_from_session_of_none st now sidq
      (sessLookup_filter_none _ st sidq h)]
  · intro u exp h
    have hfil :
        sessLookup (cleanup_expired_sessions now st) sidq =
          if (decide ¬ (sidq, u, exp).2.2 < now) = true then some (u, exp)
          else none :=
      sessLookup_filter_of_some _ st sidq (u, exp) hnd h
    constructor
    · intro hexp
      have hnone :
          sessLookup (cleanup_expired_sessions now st) sidq = none := by
        rw [hfil]
        simp only [decide_eq_true_eq, not_not]
        rw [if_neg (by simpa using hexp)]
      rw [get_user_from_session_of_none st now sidq hnone]
      exact ⟨rfl, hnone⟩
    · intro hexp
      have hsome :
          sessLookup (cleanup_expired_sessions now st) sidq =
            some (u, exp) := by
        rw [hfil]
        rw [if_pos (by simpa using not_lt.mpr hexp)]
      rw [get_user_from_session_of_live st now sidq u exp hsome
        (not_lt.mpr hexp)]

/-- Witness for C4 at a concrete store. -/
theorem session_sweep_and_lookup_witness :
    (∀ e ∈ (create_session [("a", "u1", (5 : Int))] 0 "u2" "s2").1,
      (0 : Int) ≤ e.2.2) ∧
    (∀ e ∈ (get_user_from_session [("a", "u1", (5 : Int))] 0 "a").1,
      (0 : Int) ≤ e.2.2) ∧
    (sessLookup [("a", "u1", (5 : Int))] "a" = none →
      (get_user_from_session [("a", "u1", (5 : Int))] 0 "a").2 = none) ∧
    (∀ u exp, sessLookup [("a", "u1", (5 : Int))] "a" = some (u, exp) →
      (exp < 0 →
        (get_user_from_session [("a", "u1", (5 : Int))] 0 "a").2 = none ∧
        sessLookup (get_user_from_session [("a", "u1", (5 : Int))] 0 "a").1
          "a" = none) ∧
      ((0 : Int) ≤ exp →
        (get_user_from_session [("a", "u1", (5 : Int))] 0 "a").2 =
          some u)) :=
  session_sweep_and_lookup [("a", "u1", (5 : Int))] 0 "u2" "s2" "a"
    (by decide)

/-! ## Claim C5 — session round-trip and deletion -/

/-- C5.  Creating a session and reading it back before the 7-day
expiry yields the same user id, and after `delete_session` the id
resolves to `None`. -/
theorem session_roundtrip_and_delete (st : SessStore) (now now2 : Int)
    (uid sid : String) (st2 : SessStore) (sid2 : String) (now3 : Int)
    (h : now2 ≤ now + SESSION_EXPIRE_SECONDS) :
    (get_user_from_session (create_session st now uid sid).1 now2
        (create_session st now uid sid).2).2 = some uid ∧
    (get_user_from_session (delete_session st2 sid2) now3 sid2).2 = none := by
  constructor
  · have hp : (fun e : String × String × Int => decide (¬ e.2.2 < now2))
        (sid, uid, now + SESSION_EXPIRE_SECONDS) = true := by
      simp only [decide_eq_true_eq]
      exact not_lt.mpr h
    have hl :
        sessLookup
          (cleanup_expired_sessions now2 (create_session st now uid sid).1)
          sid = some (uid, now + SESSION_EXPIRE_SECONDS) := by
      simp only [create_session, cleanup_expired_sessions]
      exact sessLookup_filter_sessInsert _ _ sid
        (uid, now + SESSION_EXPIRE_SECONDS) hp
    rw [show (create_session st now uid sid).2 = sid from rfl]
    rw [get_user_from_session_of_live _ now2 sid uid _ hl (not_lt.mpr h)]
  · have habs : ∀ e ∈ cleanup_expired_sessions now3 (delete_session st2 sid2),
        e.1 ≠ sid2 := by
      intro e he
      have h1 : e ∈ delete_session st2 sid2 := (List.mem_filter.mp he).1
      have h2 := (List.mem_filter.mp h1).2
      simpa using h2
    have hl : sessLookup
        (cleanup_expired_sessions now3 (delete_session st2 sid2)) sid2 =
          none :=
      sessLookup_eq_none_of_absent _ sid2 habs
    rw [get_user_from_session_of_none _ now3 sid2 hl]

/-- Witness for C5 at a concrete store and times. -/
theorem session_roundtrip_and_delete_witness :
    (get_user_from_session
        (create_session [("a", "u1", (5 : Int))] 0 "bob" "s").1 3
        (create_session [("a", "u1", (5 : Int))] 0 "bob" "s").2).2 =
      some "bob" ∧
    (get_user_from_session
        (delete_session [("s", "bob", (99 : Int))] "s") 1 "s").2 = none :=
  session_roundtrip_and_delete [("a", "u1", (5 : Int))] 0 3 "bob" "s"
    [("s", "bob", (99 : Int))] "s" 1 (by decide)

/-! ## Claim C9 — bcrypt truncation noninterference -/

/-- C9.  Two passwords whose UTF-8 encodings agree on their first 72
bytes feed bcrypt identical input, hash identically under the same
salt, and verify identically against every hash; and whenever the
bcrypt oracle satisfies its check-after-hash contract, every password
verifies against its own hash. -/
theorem password_truncation_noninterference
    (hashpw : List Nat → List Nat → String)
    (checkpw : List Nat → List Nat → Bool) (salt : List Nat)
    (p1 p2 : String)
    (h : (utf8Encode p1).take 72 = (utf8Encode p2).take 72) :
    hash_password hashpw salt p1 = hash_password hashpw salt p2 ∧
    (∀ hashed, verify_password checkpw p1 hashed =
      verify_password checkpw p2 hashed) ∧
    ((∀ b s, checkpw b (utf8Encode (hashpw b s)) = true) →
      ∀ p, verify_password checkpw p (hash_password hashpw salt p) = true) := by
  refine ⟨?_, ?_, ?_⟩
  · simp only [hash_password, h]
  · intro hashed
    simp only [verify_password, h]
  · intro hbc p
    simp only [verify_password, hash_password]
    exact hbc ((utf8Encode p).take 72) salt

/-- Witness for C9: two 73-character passwords differing only in the
73rd byte, and a toy bcrypt oracle satisfying the contract. -/
theorem password_truncation_noninterference_witness :
    hash_password (fun _ _ => "h") []
        (String.mk (List.replicate 72 'a' ++ ['b'])) =
      hash_password (fun _ _ => "h") []
        (String.mk (List.replicate 72 'a' ++ ['c'])) ∧
    (∀ hashed, verify_password (fun _ _ => true)
        (String.mk (List.replicate 72 'a' ++ ['b'])) hashed =
      verify_password (fun _ _ => true)
        (String.mk (List.replicate 72 'a' ++ ['c'])) hashed) ∧
    ((∀ b s, (fun _ _ => true : List Nat → List Nat → Bool) b
        (utf8Encode ((fun _ _ => "h" : List Nat → List Nat → String) b s)) =
          true) →
      ∀ p, verify_password (fun _ _ => true) p
        (hash_password (fun _ _ => "h") [] p) = true) :=
  password_truncation_noninterference (fun _ _ => "h") (fun _ _ => true) []
    (String.mk (List.replicate 72 'a' ++ ['b']))
    (String.mk (List.replicate 72 'a' ++ ['c'])) (by decide)

/-! ## Claim C10 — valid-timings invariant on stored schedules -/

/-- C10.  The timings list `upload_prescription` stores is always a
non-empty list of valid timing strings, and `update_schedule` stores a
timings list only when its valid-filtered form is non-empty (otherwise
it raises HTTP 400). -/
theorem stored_timings_valid (tv : PyVal) (input : List String)
    (ts : List String) (h : updateScheduleTimings input = .ok ts) :
    (cleanUploadTimings tv ≠ [] ∧
      ∀ v ∈ cleanUploadTimings tv, isValidTiming v = true) ∧
    (ts ≠ [] ∧ ∀ t ∈ ts, t ∈ valid_timings) := by
  constructor
  · unfold cleanUploadTimings
    by_cases h1 : (!pyTruthy tv || !pyIsList tv) = true
    · rw [if_pos h1]
      refine ⟨by simp, ?_⟩
      intro v hv
      simp only [List.mem_singleton] at hv
      subst hv
      rfl
    · rw [if_neg h1]
      rcases tv with s | xs | b | _
      · refine ⟨by simp, ?_⟩
        intro v hv
        simp only [List.mem_singleton] at hv
        subst hv
        rfl
      · dsimp only
        by_cases h2 : (xs.filter isValidTiming).isEmpty = true
        · rw [if_pos h2]
          refine ⟨by simp, ?_⟩
          intro v hv
          simp only [List.mem_singleton] at hv
          subst hv
          rfl
        · rw [if_neg h2]
          refine ⟨?_, ?_⟩
          · intro hcon
            rw [hcon] at h2
            simp at h2
          · intro v hv
            exact (List.mem_filter.mp hv).2
      · refine ⟨by simp, ?_⟩
        intro v hv
        simp only [List.mem_singleton] at hv
        subst hv
        rfl
      · refine ⟨by simp, ?_⟩
        intro v hv
        simp only [List.mem_singleton] at hv
        subst hv
        rfl
  · unfold updateScheduleTimings at h
    by_cases h1 : (input.filter (fun t => t ∈ valid_timings)).isEmpty = true
    · rw [if_pos h1] at h
      simp at h
    · rw [if_neg h1] at h
      have hts : ts = input.filter (fun t => t ∈ valid_timings) := by
        cases h
        rfl
      subst hts
      refine ⟨?_, ?_⟩
      · intro hcon
        rw [hcon] at h1
        simp at h1
      · intro t ht
        have := (List.mem_filter.mp ht).2
        simpa using this

/-- Witness for C10 at concrete inputs. -/
theorem stored_timings_valid_witness :
    (cleanUploadTimings (.vlist [.str "evening", .str "weird"]) ≠ [] ∧
      ∀ v ∈ cleanUploadTimings (.vlist [.str "evening", .str "weird"]),
        isValidTiming v = true) ∧
    (["night"] ≠ ([] : List String) ∧
      ∀ t ∈ ["night"], t ∈ valid_timings) :=
  stored_timings_valid (.vlist [.str "evening", .str "weird"])
    ["night", "bogus"] ["night"] rfl

/-! ## Claim C2 — time matching against configured times -/

/-- Parsing the period's default time always succeeds and gives the
specification's default minute-of-day. -/
theorem parseHM_default (p : String) :
    ∃ h m, parseHM ((alistGet DEFAULT_TIMES p).getD "08:00") = some (h, m) ∧
      h * 60 + m = claimDefaultTotal p := by
  by_cases h1 : p = "morning"
  · subst h1; exact ⟨8, 0, by decide, by decide⟩
  · by_cases h2 : p = "afternoon"
    · subst h2; exact ⟨13, 0, by decide, by decide⟩
    · by_cases h3 : p = "evening"
      · subst h3; exact ⟨18, 0, by decide, by decide⟩
      · by_cases h4 : p = "night"
        · subst h4; exact ⟨21, 0, by decide, by decide⟩
        · have hd : alistGet DEFAULT_TIMES p = none := by
            simp [DEFAULT_TIMES, alistGet, Ne.symm h1, Ne.symm h2,
              Ne.symm h3, Ne.symm h4]
          have hc : claimDefaultTotal p = 8 * 60 := by
            unfold claimDefaultTotal
            rw [if_neg h1, if_neg h2, if_neg h3, if_neg h4]
          rw [hd, hc]
          exact ⟨8, 0, by decide, by decide⟩

/-- C2.  `_should_send_now` returns `True` exactly when the current
minute-of-day is within 2 of the configured time's minute-of-day,
where the configured time is the parseable `custom_times` entry when
present and the period's default otherwise. -/
theorem should_send_now_iff_claim (schedule : Schedule)
    (timing_period : String) (nowHour nowMinute : Int) :
    should_send_now schedule timing_period nowHour nowMinute = true ↔
      ((nowHour * 60 + nowMinute) -
        claimConfiguredTotal schedule timing_period).natAbs ≤ 2 := by
  unfold should_send_now claimConfiguredTotal get_scheduled_time
  obtain ⟨dh, dm, hdp, hdv⟩ := parseHM_default timing_period
  rcases hct : alistGet (schedule.custom_times.getD []) timing_period with
    _ | s
  · simp only [hct, Option.getD_none, hdp, Option.getD_some,
      decide_eq_true_eq]
    rw [hdv]
  · simp only [hct, Option.getD_some]
    rcases hps : parseHM s with _ | ⟨h, m⟩
    · simp only [hps, hdp, Option.getD_some, decide_eq_true_eq]
      rw [hdv]
    · simp only [hps, decide_eq_true_eq]

/-! ## Claim C1 — per-day de-duplication of reminder sends -/

/-- Lookup after in-place insert, at the inserted key. -/
theorem alistGet_dsetA_same {α : Type} (m : List (String × α)) (k : String)
    (v : α) : alistGet (dsetA m k v) k = some v := by
  induction m with
  | nil => simp [dsetA, alistGet]
  | cons hd tl ih =>
    obtain ⟨k0, v0⟩ := hd
    simp only [dsetA]
    by_cases hk : k0 = k
    · rw [if_pos hk]
      simp [alistGet]
    · rw [if_neg hk]
      simp only [alistGet]
      rw [if_neg hk]
      exact ih

/-- A recorded send implies the code's `reminders_sent_today` dedup
check fires. -/
theorem sentTodayHit_of_recorded (schedule : Schedule)
    (timing_period : String) (todayStart t : Int)
    (h : alistGet (schedule.reminders_sent_today.getD []) timing_period =
        some (.dt t) ∨
      alistGet (schedule.reminders_sent_today.getD []) timing_period =
        some (.goodStr t))
    (ht : todayStart ≤ t) :
    sentTodayHit schedule timing_period todayStart = true := by
  unfold sentTodayHit
  rcases h with h | h <;> rw [h] <;> simp only [SentVal.truthy] <;>
    simp [ht]

/-- A recorded legacy send implies the code's legacy dedup check
fires. -/
theorem legacyHit_of_recorded (schedule : Schedule) (timing_period : String)
    (todayStart t : Int) (h1 : schedule.last_reminder_sent = some (.dt t))
    (ht : todayStart ≤ t)
    (h2 : schedule.last_reminder_timing = some timing_period) :
    legacyHit schedule timing_period todayStart = true := by
  unfold legacyHit
  rw [h1]
  simp [SentVal.truthy, h2, ht]

/-- C1.  If the schedule's `reminders_sent_today` map (or the legacy
fields) records a send for the period at or after the start of the
current UTC day, the tick attempts neither an email nor a push for the
pair; and a successful send's own `$set` leaves the schedule in that
recorded state for the rest of the day. -/
theorem dedup_no_resend (schedule : Schedule) (timing_period : String)
    (nowHour nowMinute todayStart nowNaive : Int) (user : Option UserDoc)
    (emailOk pushOk : Bool)
    (h : recordedSentToday schedule timing_period todayStart) :
    (processTiming schedule timing_period nowHour nowMinute todayStart
        nowNaive user emailOk pushOk).emailAttempted = false ∧
    (processTiming schedule timing_period nowHour nowMinute todayStart
        nowNaive user emailOk pushOk).pushAttempted = false ∧
    (∀ t, todayStart ≤ t →
      recordedSentToday (applyUpdate schedule t timing_period) timing_period
        todayStart) := by
  have hskip : processTiming schedule timing_period nowHour nowMinute
      todayStart nowNaive user emailOk pushOk = .skip := by
    unfold processTiming
    by_cases h1 : should_send_now schedule timing_period nowHour nowMinute =
        true
    · rcases h with ⟨t, hmap, ht⟩ | ⟨t, hl1, hlt, hl2⟩
      · rw [if_neg (not_not_intro h1),
          if_pos (sentTodayHit_of_recorded schedule timing_period todayStart
            t hmap ht)]
      · by_cases h2 : sentTodayHit schedule timing_period todayStart = true
        · rw [if_neg (not_not_intro h1), if_pos h2]
        · rw [if_neg (not_not_intro h1), if_neg h2,
            if_pos (legacyHit_of_recorded schedule timing_period todayStart
              t hl1 hlt hl2)]
    · rw [if_pos h1]
  refine ⟨by rw [hskip]; rfl, by rw [hskip]; rfl, ?_⟩
  intro t ht
  exact Or.inr ⟨t, rfl, ht, rfl⟩

/-- Witness for C1: a schedule already marked as sent this morning. -/
theorem dedup_no_resend_witness :
    (processTiming
        ⟨"Paracetamol", "500mg", "u1", ["morning"], none,
          some [("morning", .dt 500)], none, none⟩
        "morning" 8 0 400 500 (some ⟨some "a@b.c", none⟩) true true
      ).emailAttempted = false ∧
    (processTiming
        ⟨"Paracetamol", "500mg", "u1", ["morning"], none,
          some [("morning", .dt 500)], none, none⟩
        "morning" 8 0 400 500 (some ⟨some "a@b.c", none⟩) true true
      ).pushAttempted = false ∧
    (∀ t, (400 : Int) ≤ t →
      recordedSentToday
        (applyUpdate
          ⟨"Paracetamol", "500mg", "u1", ["morning"], none,
            some [("morning", .dt 500)], none, none⟩
          t "morning") "morning" 400) :=
  dedup_no_resend
    ⟨"Paracetamol", "500mg", "u1", ["morning"], none,
      some [("morning", .dt 500)], none, none⟩
    "morning" 8 0 400 500 (some ⟨some "a@b.c", none⟩) true true
    (Or.inl ⟨500, Or.inl rfl, by decide⟩)

/-! ## Claim C3 — dedup state written iff a send succeeded -/

/-- C3.  For a due pair (time matched, no dedup hit, user found with a
non-empty email), the tick attempts the email, and writes the
`reminders_sent_today.<period>` / `last_reminder_sent` /
`last_reminder_timing` update exactly when the email send or the push
send reported success; when neither did, no update is written. -/
theorem update_iff_send_success (schedule : Schedule)
    (timing_period : String) (nowHour nowMinute todayStart nowNaive : Int)
    (u : UserDoc) (e : String) (emailOk pushOk : Bool)
    (hsend : should_send_now schedule timing_period nowHour nowMinute = true)
    (hded : sentTodayHit schedule timing_period todayStart = false)
    (hleg : legacyHit schedule timing_period todayStart = false)
    (hemail : u.email = some e) (he : e ≠ "") :
    (processTiming schedule timing_period nowHour nowMinute todayStart
        nowNaive (some u) emailOk pushOk).emailAttempted = true ∧
    ((processTiming schedule timing_period nowHour nowMinute todayStart
        nowNaive (some u) emailOk pushOk).update =
          some (nowNaive, timing_period) ↔
      (emailOk ||
        ((processTiming schedule timing_period nowHour nowMinute todayStart
          nowNaive (some u) emailOk pushOk).pushAttempted && pushOk)) =
        true) ∧
    ((emailOk ||
        ((processTiming schedule timing_period nowHour nowMinute todayStart
          nowNaive (some u) emailOk pushOk).pushAttempted && pushOk)) =
        false →
      (processTiming schedule timing_period nowHour nowMinute todayStart
        nowNaive (some u) emailOk pushOk).update = none) ∧
    (applyUpdate schedule nowNaive timing_period).last_reminder_sent =
      some (.dt nowNaive) ∧
    (applyUpdate schedule nowNaive timing_period).last_reminder_timing =
      some timing_period ∧
    alistGet
      ((applyUpdate schedule nowNaive timing_period
        ).reminders_sent_today.getD []) timing_period = some (.dt nowNaive)
    := by
  have hred : processTiming schedule timing_period nowHour nowMinute
      todayStart nowNaive (some u) emailOk pushOk =
        (if emailOk || ((u.fcm_token.getD "") ≠ "" && pushOk) then
          ⟨true, (u.fcm_token.getD "") ≠ "", some (nowNaive, timing_period)⟩
        else ⟨true, (u.fcm_token.getD "") ≠ "", none⟩) := by
    unfold processTiming
    rw [if_neg (not_not_intro hsend), if_neg (by simp [hded]),
      if_neg (by simp [hleg])]
    simp only [hemail]
    rw [if_neg he]
  rw [hred]
  by_cases hs : (emailOk || ((u.fcm_token.getD "") ≠ "" && pushOk)) = true
  · rw [if_pos hs]
    refine ⟨rfl, ?_, ?_, rfl, rfl, alistGet_dsetA_same _ _ _⟩
    · exact ⟨fun _ => hs, fun _ => rfl⟩
    · intro hcon
      rw [hs] at hcon
      exact absurd hcon (by simp)
  · rw [if_neg hs]
    refine ⟨rfl, ?_, fun _ => rfl, rfl, rfl, alistGet_dsetA_same _ _ _⟩
    constructor
    · intro hcon
      simp at hcon
    · intro hcon
      exact absurd hcon hs

/-- Witness for C3: a due schedule with a found user, email success
and no FCM token. -/
theorem update_iff_send_success_witness :
    (processTiming
        ⟨"Ibuprofen", "200mg", "u1", ["evening"], none, none, none, none⟩
        "evening" 18 1 400 900 (some ⟨some "a@b.c", none⟩) true false
      ).emailAttempted = true ∧
    ((processTiming
        ⟨"Ibuprofen", "200mg", "u1", ["evening"], none, none, none, none⟩
        "evening" 18 1 400 900 (some ⟨some "a@b.c", none⟩) true false
      ).update = some (900, "evening") ↔
      (true ||
        ((processTiming
          ⟨"Ibuprofen", "200mg", "u1", ["evening"], none, none, none, none⟩
          "evening" 18 1 400 900 (some ⟨some "a@b.c", none⟩) true false
        ).pushAttempted && false)) = true) ∧
    ((true ||
        ((processTiming
          ⟨"Ibuprofen", "200mg", "u1", ["evening"], none, none, none, none⟩
          "evening" 18 1 400 900 (some ⟨some "a@b.c", none⟩) true false
        ).pushAttempted && false)) = false →
      (processTiming
        ⟨"Ibuprofen", "200mg", "u1", ["evening"], none, none, none, none⟩
        "evening" 18 1 400 900 (some ⟨some "a@b.c", none⟩) true false
      ).update = none) ∧
    (applyUpdate
      ⟨"Ibuprofen", "200mg", "u1", ["evening"], none, none, none, none⟩
      900 "evening").last_reminder_sent = some (.dt 900) ∧
    (applyUpdate
      ⟨"Ibuprofen", "200mg", "u1", ["evening"], none, none, none, none⟩
      900 "evening").last_reminder_timing = some "evening" ∧
    alistGet
      ((applyUpdate
        ⟨"Ibuprofen", "200mg", "u1", ["evening"], none, none, none, none⟩
        900 "evening").reminders_sent_today.getD []) "evening" =
      some (.dt 900) :=
  update_iff_send_success
    ⟨"Ibuprofen", "200mg", "u1", ["evening"], none, none, none, none⟩
    "evening" 18 1 400 900 ⟨some "a@b.c", none⟩ "a@b.c" true false
    (by decide) (by decide) (by decide) rfl (by decide)

/-! ## Claim C8 — email delivery result as a boolean

The claim says `send_email` returns `True` if and only if the API call
is made and responds with status 200 or 201.  That misses the error
paths inside the success branch: the code runs
`data = response.json()` and `data.get('id', 'N/A')` before
`return True`, so a 200/201 response whose body is not JSON, or is
JSON but not a JSON object (`null`, a list, a string, a number),
raises, is caught by the blanket `except Exception`, and yields
`False`. -/

/-- Counterexample to C8 as stated: a 200 response whose body is the
JSON value `null` makes the call, has status 200, and still returns
`False` (the `AttributeError` from `data.get` is caught). -/
theorem send_email_claim_counterexample :
    ¬ ((send_email true "key" (.resp 200 .jsonNonObject)).2 = true ↔
      ((send_email true "key" (.resp 200 .jsonNonObject)).1 = true ∧
        ∃ s b, HttpOutcome.resp 200 RespBody.jsonNonObject =
            HttpOutcome.resp s b ∧
          (s = 200 ∨ s = 201))) := by
  intro h
  have h2 : (send_email true "key" (.resp 200 .jsonNonObject)).2 = true :=
    h.mpr ⟨rfl, 200, .jsonNonObject, rfl, Or.inl rfl⟩
  simp [send_email] at h2

/-- C8 (amended).  `send_email` returns `True` iff the API call is
made and responds with status 200 or 201 with a body that parses as a
JSON object; it returns `False` — without raising — when email is
disabled, when the API key is empty (no call made in either case), on
a 200/201 body that is not a JSON object, on any other status, and on
timeout or connection errors; and `send_medication_reminder` returns
exactly the `send_email` result. -/
theorem send_email_status_amended (emailEnabled : Bool) (apiKey : String)
    (outcome : HttpOutcome) :
    ((send_email emailEnabled apiKey outcome).2 = true ↔
      ((send_email emailEnabled apiKey outcome).1 = true ∧
        ∃ s, (s = 200 ∨ s = 201) ∧ outcome = .resp s .jsonObject)) ∧
    (emailEnabled = false → send_email emailEnabled apiKey outcome =
      (false, false)) ∧
    (apiKey = "" → send_email emailEnabled apiKey outcome =
      (false, false)) ∧
    (∀ s b, outcome = .resp s b → b ≠ .jsonObject →
      (send_email emailEnabled apiKey outcome).2 = false) ∧
    (∀ s b, outcome = .resp s b → ¬ (s = 200 ∨ s = 201) →
      (send_email emailEnabled apiKey outcome).2 = false) ∧
    ((outcome = .timeout ∨ outcome = .connError ∨ outcome = .otherError) →
      (send_email emailEnabled apiKey outcome).2 = false) ∧
    send_medication_reminder emailEnabled apiKey outcome =
      send_email emailEnabled apiKey outcome := by
  refine ⟨?_, ?_, ?_, ?_, ?_, ?_, rfl⟩
  · unfold send_email
    by_cases h1 : emailEnabled = true
    · simp only [h1]
      by_cases h2 : apiKey = ""
      · rw [if_neg (by simp), if_pos h2]
        constructor
        · intro hc
          simp at hc
        · rintro ⟨hc, _⟩
          simp at hc
      · rw [if_neg (by simp), if_neg h2]
        rcases outcome with ⟨s, b⟩ | _ | _ | _ <;> dsimp only
        · by_cases h3 : s = 200 ∨ s = 201
          · rw [if_pos h3]
            cases b
            · constructor
              · intro _
                exact ⟨rfl, s, h3, rfl⟩
              · intro _
                rfl
            · constructor
              · intro hc
                simp at hc
              · rintro ⟨_, s2, _, heq⟩
                simp at heq
            · constructor
              · intro hc
                simp at hc
              · rintro ⟨_, s2, _, heq⟩
                simp at heq
          · rw [if_neg h3]
            constructor
            · intro hc
              simp at hc
            · rintro ⟨_, s2, hs2, heq⟩
              obtain ⟨rfl, -⟩ : s = s2 ∧ b = RespBody.jsonObject := by
                cases heq
                exact ⟨rfl, rfl⟩
              exact absurd hs2 h3
        · constructor
          · intro hc
            simp at hc
          · rintro ⟨_, s2, _, heq⟩
            simp at heq
        · constructor
          · intro hc
            simp at hc
          · rintro ⟨_, s2, _, heq⟩
            simp at heq
        · constructor
          · intro hc
            simp at hc
          · rintro ⟨_, s2, _, heq⟩
            simp at heq
    · have h0 : emailEnabled = false := by
        cases emailEnabled
        · rfl
        · exact absurd rfl h1
      subst h0
      constructor
      · intro hc
        simp [send_email] at hc
      · rintro ⟨hc, _⟩
        simp [send_email] at hc
  · intro h
    subst h
    rfl
  · intro h
    subst h
    unfold send_email
    cases emailEnabled
    · rfl
    · rw [if_neg (by simp), if_pos rfl]
  · intro s b hout hb
    subst hout
    unfold send_email
    cases emailEnabled
    · rw [if_pos (by simp)]
    · rw [if_neg (by simp)]
      by_cases h2 : apiKey = ""
      · rw [if_pos h2]
      · rw [if_neg h2]
        dsimp only
        by_cases h3 : s = 200 ∨ s = 201
        · rw [if_pos h3]
          cases b
          · exact absurd rfl hb
          · rfl
          · rfl
        · rw [if_neg h3]
  · intro s b hout hs
    subst hout
    unfold send_email
    cases emailEnabled
    · rw [if_pos (by simp)]
    · rw [if_neg (by simp)]
      by_cases h2 : apiKey = ""
      · rw [if_pos h2]
      · rw [if_neg h2]
        dsimp only
        rw [if_neg hs]
  · intro hout
    unfold send_email
    cases emailEnabled
    · rw [if_pos (by simp)]
    · rw [if_neg (by simp)]
      by_cases h2 : apiKey = ""
      · rw [if_pos h2]
      · rw [if_neg h2]
        rcases hout with h | h | h <;> subst h <;> rfl

/-- Witness for the amended C8 at a concrete configuration. -/
theorem send_email_status_amended_witness :
    ((send_email true "key" (.resp 201 .jsonObject)).2 = true ↔
      ((send_email true "key" (.resp 201 .jsonObject)).1 = true ∧
        ∃ s, (s = 200 ∨ s = 201) ∧
          HttpOutcome.resp 201 RespBody.jsonObject =
            .resp s .jsonObject)) ∧
    (true = false → send_email true "key" (.resp 201 .jsonObject) =
      (false, false)) ∧
    ("key" = "" → send_email true "key" (.resp 201 .jsonObject) =
      (false, false)) ∧
    (∀ s b, HttpOutcome.resp 201 RespBody.jsonObject = .resp s b →
      b ≠ .jsonObject →
      (send_email true "key" (.resp 201 .jsonObject)).2 = false) ∧
    (∀ s b, HttpOutcome.resp 201 RespBody.jsonObject = .resp s b →
      ¬ (s = 200 ∨ s = 201) →
      (send_email true "key" (.resp 201 .jsonObject)).2 = false) ∧
    ((HttpOutcome.resp 201 RespBody.jsonObject = .timeout ∨
        HttpOutcome.resp 201 RespBody.jsonObject = .connError ∨
        HttpOutcome.resp 201 RespBody.jsonObject = .otherError) →
      (send_email true "key" (.resp 201 .jsonObject)).2 = false) ∧
    send_medication_reminder true "key" (.resp 201 .jsonObject) =
      send_email true "key" (.resp 201 .jsonObject) :=
  send_email_status_amended true "key" (.resp 201 .jsonObject)

/-! ## Claim C6 — enrichment is applied only to medicines with
missing fields -/

/-- A medicine with nothing missing passes through `enrichStep`
untouched and is counted as skipped, with no external call. -/
theorem enrichStep_complete (pipeline : Dict → List String → Dict × Bool)
    (medicine : Dict) (h : (detect_missing_information medicine).isEmpty =
      true) :
    enrichStep pipeline medicine = (medicine, (0, 1, 0), []) := by
  simp [enrichStep, h]

/-- A medicine with missing fields is handed to the external pipeline
(one trace entry) and never counted as skipped. -/
theorem enrichStep_missing (pipeline : Dict → List String → Dict × Bool)
    (medicine : Dict)
    (h : ¬ (detect_missing_information medicine).isEmpty = true) :
    (enrichStep pipeline medicine).2.2 =
      [(medicine, detect_missing_information medicine)] ∧
    (enrichStep pipeline medicine).2.1.2.1 = 0 := by
  unfold enrichStep
  rw [if_neg h]
  by_cases hp : (pipeline medicine (detect_missing_information medicine)).2 =
      true
  · rw [if_pos hp]
    exact ⟨rfl, rfl⟩
  · rw [if_neg hp]
    exact ⟨rfl, rfl⟩

/-- The loop of `enrich_medicines`: per-position identity on complete
medicines, the trace lists exactly the medicines with missing fields,
and `skipped_count` counts the complete ones. -/
theorem enrichLoop_spec (pipeline : Dict → List String → Dict × Bool)
    (meds : List Dict) :
    List.Forall₂ (fun m o => detect_missing_information m = [] → o = m)
      meds (enrichLoop pipeline meds).1 ∧
    (enrichLoop pipeline meds).2.2 =
      (meds.filter fun m => !(detect_missing_information m).isEmpty).map
        (fun m => (m, detect_missing_information m)) ∧
    (enrichLoop pipeline meds).2.1.2.1 =
      (meds.filter fun m => (detect_missing_information m).isEmpty).length
    := by
  induction meds with
  | nil => exact ⟨List.Forall₂.nil, rfl, rfl⟩
  | cons m rest ih =>
    obtain ⟨ih1, ih2, ih3⟩ := ih
    by_cases h : (detect_missing_information m).isEmpty = true
    · have hstep := enrichStep_complete pipeline m h
      refine ⟨?_, ?_, ?_⟩
      · simp only [enrichLoop, hstep]
        exact List.Forall₂.cons (fun _ => rfl) ih1
      · simp only [enrichLoop, hstep, List.filter_cons, h]
        simpa using ih2
      · simp only [enrichLoop, hstep, List.filter_cons, h]
        rw [if_pos trivial]
        simp only [List.length_cons]
        omega
    · obtain ⟨htr, hsk⟩ := enrichStep_missing pipeline m h
      refine ⟨?_, ?_, ?_⟩
      · simp only [enrichLoop]
        refine List.Forall₂.cons ?_ ih1
        intro hempty
        exact absurd (by simp [hempty]) h
      · simp only [enrichLoop, htr, List.filter_cons]
        rw [if_pos (by simp [h])]
        simp only [List.map_cons]
        rw [ih2]
        rfl
      · simp only [enrichLoop, hsk, List.filter_cons]
        rw [if_neg h]
        omega

/-- C6.  With the Groq client configured, `enrich_medicines` invokes
the web-search+LLM pipeline exactly on the medicines whose
`detect_missing_information` is non-empty, passes complete medicines
through unchanged (counting them as skipped), and preserves the length
and order of the input list. -/
theorem enrich_only_missing (groqEnabled : Bool)
    (pipeline : Dict → List String → Dict × Bool) (meds : List Dict)
    (h : groqEnabled = true) :
    (enrich_medicines groqEnabled pipeline meds).1.length = meds.length ∧
    List.Forall₂ (fun m o => detect_missing_information m = [] → o = m)
      meds (enrich_medicines groqEnabled pipeline meds).1 ∧
    (enrich_medicines groqEnabled pipeline meds).2.2 =
      (meds.filter fun m => !(detect_missing_information m).isEmpty).map
        (fun m => (m, detect_missing_information m)) ∧
    (enrich_medicines groqEnabled pipeline meds).2.1.skipped_count =
      (meds.filter fun m => (detect_missing_information m).isEmpty).length
    := by
  subst h
  obtain ⟨h1, h2, h3⟩ := enrichLoop_spec pipeline meds
  have hred : enrich_medicines true pipeline meds =
      ((enrichLoop pipeline meds).1,
        ⟨true, (enrichLoop pipeline meds).2.1.1,
          (enrichLoop pipeline meds).2.1.2.1,
          (enrichLoop pipeline meds).2.1.2.2⟩,
        (enrichLoop pipeline meds).2.2) := by
    unfold enrich_medicines
    rw [if_neg (by simp)]
  rw [hred]
  exact ⟨(h1.length_eq).symm, h1, h3 ▸ ⟨h2, rfl⟩⟩

/-- Witness for C6: one complete and one incomplete medicine, with a
pipeline that marks what it saw. -/
theorem enrich_only_missing_witness :
    (enrich_medicines true (fun m _ => (dset m "dosage" (.str "1mg"), true))
        [[("dosage", .str "500mg"), ("frequency", .str "twice a day"),
            ("timings", .vlist [.str "morning"])],
          [("dosage", .str "Unknown"), ("frequency", .str "twice a day"),
            ("timings", .vlist [.str "morning"])]]).1.length = 2 ∧
    List.Forall₂ (fun m o => detect_missing_information m = [] → o = m)
      [[("dosage", .str "500mg"), ("frequency", .str "twice a day"),
          ("timings", .vlist [.str "morning"])],
        [("dosage", .str "Unknown"), ("frequency", .str "twice a day"),
          ("timings", .vlist [.str "morning"])]]
      (enrich_medicines true (fun m _ => (dset m "dosage" (.str "1mg"), true))
        [[("dosage", .str "500mg"), ("frequency", .str "twice a day"),
            ("timings", .vlist [.str "morning"])],
          [("dosage", .str "Unknown"), ("frequency", .str "twice a day"),
            ("timings", .vlist [.str "morning"])]]).1 ∧
    (enrich_medicines true (fun m _ => (dset m "dosage" (.str "1mg"), true))
        [[("dosage", .str "500mg"), ("frequency", .str "twice a day"),
            ("timings", .vlist [.str "morning"])],
          [("dosage", .str "Unknown"), ("frequency", .str "twice a day"),
            ("timings", .vlist [.str "morning"])]]).2.2 =
      (([[("dosage", .str "500mg"), ("frequency", .str "twice a day"),
            ("timings", .vlist [.str "morning"])],
          [("dosage", .str "Unknown"), ("frequency", .str "twice a day"),
            ("timings", .vlist [.str "morning"])]].filter
          fun m => !(detect_missing_information m).isEmpty).map
        (fun m => (m, detect_missing_information m))) ∧
    (enrich_medicines true (fun m _ => (dset m "dosage" (.str "1mg"), true))
        [[("dosage", .str "500mg"), ("frequency", .str "twice a day"),
            ("timings", .vlist [.str "morning"])],
          [("dosage", .str "Unknown"), ("frequency", .str "twice a day"),
            ("timings", .vlist [.str "morning"])]]).2.1.skipped_count =
      ([[("dosage", .str "500mg"), ("frequency", .str "twice a day"),
          ("timings", .vlist [.str "morning"])],
        [("dosage", .str "Unknown"), ("frequency", .str "twice a day"),
          ("timings", .vlist [.str "morning"])]].filter
        fun m => (detect_missing_information m).isEmpty).length :=
  enrich_only_missing true (fun m _ => (dset m "dosage" (.str "1mg"), true))
    [[("dosage", .str "500mg"), ("frequency", .str "twice a day"),
        ("timings", .vlist [.str "morning"])],
      [("dosage", .str "Unknown"), ("frequency", .str "twice a day"),
        ("timings", .vlist [.str "morning"])]] rfl

/-! ## Claim C7 — enrichment touches only missing fields -/

/-- A field block preserves every key other than its own field, and
every key outside `missing_fields`. -/
theorem enrichField_preserve (field : String) (missing_fields : List String)
    (data : Dict) (acc acc2 : Dict × Bool × List String)
    (h : enrichField field missing_fields data acc = some acc2) (k : String)
    (hk : k ≠ field ∨ k ∉ missing_fields) :
    dget acc2.1 k = dget acc.1 k := by
  unfold enrichField at h
  by_cases hc : field ∈ missing_fields ∧ pyNeqUTD (dget data field) = true
  · rw [if_pos hc] at h
    rcases hd : dget data field with _ | v
    · rw [hd] at h
      simp at h
    · rw [hd] at h
      have hfk : field ≠ k := by
        rcases hk with hk | hk
        · exact fun hf => hk hf.symm
        · exact fun hf => hk (hf ▸ hc.1)
      obtain rfl := Option.some.inj h
      exact dget_dset_other acc.1 field k v hfk
  · rw [if_neg hc] at h
    obtain rfl := Option.some.inj h
    rfl

/-- When the LLM answered "Unable to determine" for the field, the
field block is a no-op. -/
theorem enrichField_utd (field : String) (missing_fields : List String)
    (data : Dict) (acc : Dict × Bool × List String)
    (h : dget data field = some (.str "Unable to determine")) :
    enrichField field missing_fields data acc = some acc := by
  unfold enrichField
  rw [if_neg]
  rintro ⟨_, hne⟩
  rw [h] at hne
  simp [pyNeqUTD, pyEqStr] at hne

/-- The timings block preserves every key other than `timings`, and
every key outside `missing_fields`. -/
theorem enrichTimings_preserve (missing_fields : List String) (data : Dict)
    (acc acc2 : Dict × Bool × List String)
    (h : enrichTimings missing_fields data acc = some acc2) (k : String)
    (hk : k ≠ "timings" ∨ k ∉ missing_fields) :
    dget acc2.1 k = dget acc.1 k := by
  unfold enrichTimings at h
  by_cases hc : "timings" ∈ missing_fields ∧
      pyTruthy (dgetD data "timings" .vnone) = true
  · rw [if_pos hc] at h
    rcases hi : pyIter (dgetD data "timings" .vnone) with _ | elems
    · rw [hi] at h
      simp at h
    · rw [hi] at h
      dsimp only at h
      by_cases he : (!(elems.filter isValidTiming).isEmpty) = true
      · rw [if_pos he] at h
        have hfk : "timings" ≠ k := by
          rcases hk with hk | hk
          · exact fun hf => hk hf.symm
          · exact fun hf => hk (hf ▸ hc.1)
        obtain rfl := Option.some.inj h
        exact dget_dset_other acc.1 "timings" k _ hfk
      · rw [if_neg he] at h
        obtain rfl := Option.some.inj h
        rfl
  · rw [if_neg hc] at h
    obtain rfl := Option.some.inj h
    rfl

/-- The timings block either leaves `timings` alone or replaces it
with a non-empty list of valid timing values. -/
theorem enrichTimings_timings (missing_fields : List String) (data : Dict)
    (acc acc2 : Dict × Bool × List String)
    (h : enrichTimings missing_fields data acc = some acc2) :
    dget acc2.1 "timings" = dget acc.1 "timings" ∨
      ∃ ts, dget acc2.1 "timings" = some (.vlist ts) ∧ ts ≠ [] ∧
        ∀ v ∈ ts, isValidTiming v = true := by
  unfold enrichTimings at h
  by_cases hc : "timings" ∈ missing_fields ∧
      pyTruthy (dgetD data "timings" .vnone) = true
  · rw [if_pos hc] at h
    rcases hi : pyIter (dgetD data "timings" .vnone) with _ | elems
    · rw [hi] at h
      simp at h
    · rw [hi] at h
      dsimp only at h
      by_cases he : (!(elems.filter isValidTiming).isEmpty) = true
      · rw [if_pos he] at h
        obtain rfl := Option.some.inj h
        refine Or.inr ⟨elems.filter isValidTiming,
          dget_dset_same acc.1 "timings" _, ?_, ?_⟩
        · intro hnil
          rw [hnil] at he
          simp at he
        · intro v hv
          exact (List.mem_filter.mp hv).2
      · rw [if_neg he] at h
        obtain rfl := Option.some.inj h
        exact Or.inl rfl
  · rw [if_neg hc] at h
    obtain rfl := Option.some.inj h
    exact Or.inl rfl

/-- The metadata block only writes the four `enrichment_*` keys. -/
theorem enrichMeta_preserve (data : Dict) (acc : Dict × Bool × List String)
    (k : String) (hk : k ∉ enrichmentMetaKeys) :
    dget (enrichMeta data acc).1 k = dget acc.1 k := by
  simp only [enrichmentMetaKeys, List.mem_cons, List.mem_singleton,
    not_or] at hk
  obtain ⟨hk1, hk2, hk3, hk4, -⟩ := hk
  unfold enrichMeta
  by_cases hw : acc.2.1 = true
  · rw [if_pos hw]
    dsimp only
    rw [dget_dset_other _ _ _ _ fun hf => hk4 hf.symm,
      dget_dset_other _ _ _ _ fun hf => hk3 hf.symm,
      dget_dset_other _ _ _ _ fun hf => hk2 hf.symm,
      dget_dset_other _ _ _ _ fun hf => hk1 hf.symm]
  · rw [if_neg hw]

/-- C7.  `enrich_medicine_with_llm` agrees with its input on every key
not listed in `missing_fields` (apart from the four metadata keys), a
missing dosage/frequency is left alone when the LLM answered "Unable
to determine", `timings` is only ever replaced by a non-empty sublist
of the valid timing set, and every exception path returns the original
medicine with the success flag `False`. -/
theorem llm_enrichment_frame (medicine : Dict) (missing_fields : List String)
    (data : Dict) :
    (∀ k, k ∉ missing_fields → k ∉ enrichmentMetaKeys →
      dget (enrich_medicine_with_llm true medicine missing_fields
        (some data)).1 k = dget medicine k) ∧
    (∀ k, k = "dosage" ∨ k = "frequency" →
      dget data k = some (.str "Unable to determine") →
      dget (enrich_medicine_with_llm true medicine missing_fields
        (some data)).1 k = dget medicine k) ∧
    (dget (enrich_medicine_with_llm true medicine missing_fields
        (some data)).1 "timings" ≠ dget medicine "timings" →
      ∃ ts, dget (enrich_medicine_with_llm true medicine missing_fields
          (some data)).1 "timings" = some (.vlist ts) ∧ ts ≠ [] ∧
        ∀ v ∈ ts, isValidTiming v = true) ∧
    (enrich_medicine_with_llm true medicine missing_fields none =
      (medicine, false)) ∧
    (enrichBody medicine missing_fields data = none →
      enrich_medicine_with_llm true medicine missing_fields (some data) =
        (medicine, false)) := by
  rcases hb : enrichBody medicine missing_fields data with _ | r
  · have hres : enrich_medicine_with_llm true medicine missing_fields
        (some data) = (medicine, false) := by
      simp [enrich_medicine_with_llm, hb]
    refine ⟨?_, ?_, ?_, rfl, fun _ => hres⟩
    · intro k _ _
      rw [hres]
    · intro k _ _
      rw [hres]
    · rw [hres]
      intro hne
      exact absurd rfl hne
  · have hres : enrich_medicine_with_llm true medicine missing_fields
        (some data) = r := by
      simp [enrich_medicine_with_llm, hb]
    unfold enrichBody at hb
    rcases h1 : enrichField "dosage" missing_fields data
        (medicine, false, []) with _ | acc1
    · rw [h1] at hb
      simp at hb
    rw [h1] at hb
    dsimp only at hb
    rcases h2 : enrichField "frequency" missing_fields data acc1 with
      _ | acc2
    · rw [h2] at hb
      simp at hb
    rw [h2] at hb
    dsimp only at hb
    rcases h3 : enrichTimings missing_fields data acc2 with _ | acc3
    · rw [h3] at hb
      simp at hb
    rw [h3] at hb
    dsimp only at hb
    obtain rfl := Option.some.inj hb
    have hchain : ∀ k, k ≠ "dosage" ∨ k ∉ missing_fields →
        k ≠ "frequency" ∨ k ∉ missing_fields →
        k ≠ "timings" ∨ k ∉ missing_fields →
        dget acc3.1 k = dget medicine k := by
      intro k ha hb2 hc
      rw [enrichTimings_preserve missing_fields data acc2 acc3 h3 k hc,
        enrichField_preserve "frequency" missing_fields data acc1 acc2 h2
          k hb2,
        enrichField_preserve "dosage" missing_fields data
          (medicine, false, []) acc1 h1 k ha]
    refine ⟨?_, ?_, ?_, rfl, fun hcon => absurd hcon (by simp)⟩
    · intro k hkm hkmeta
      rw [hres, enrichMeta_preserve data acc3 k hkmeta]
      exact hchain k (Or.inr hkm) (Or.inr hkm) (Or.inr hkm)
    · rintro k (rfl | rfl) hutd
      · have hmeta : "dosage" ∉ enrichmentMetaKeys := by decide
        rw [hres, enrichMeta_preserve data acc3 _ hmeta,
          enrichTimings_preserve missing_fields data acc2 acc3 h3 _
            (Or.inl (by decide)),
          enrichField_preserve "frequency" missing_fields data acc1 acc2 h2
            _ (Or.inl (by decide))]
        have h1a := enrichField_utd "dosage" missing_fields data
          (medicine, false, []) hutd
        rw [h1a] at h1
        obtain rfl := Option.some.inj h1
        rfl
      · have hmeta : "frequency" ∉ enrichmentMetaKeys := by decide
        rw [hres, enrichMeta_preserve data acc3 _ hmeta,
          enrichTimings_preserve missing_fields data acc2 acc3 h3 _
            (Or.inl (by decide))]
        have h2a := enrichField_utd "frequency" missing_fields data acc1
          hutd
        rw [h2a] at h2
        obtain rfl := Option.some.inj h2
        exact enrichField_preserve "dosage" missing_fields data
          (medicine, false, []) acc1 h1 _ (Or.inl (by decide))
    · intro hne
      have hmeta : "timings" ∉ enrichmentMetaKeys := by decide
      rw [hres, enrichMeta_preserve data acc3 _ hmeta] at hne ⊢
      rcases enrichTimings_timings missing_fields data acc2 acc3 h3 with
        hsame | ⟨ts, hts, hne2, hval⟩
      · exfalso
        apply hne
        rw [hsame,
          enrichField_preserve "frequency" missing_fields data acc1 acc2 h2
            _ (Or.inl (by decide)),
          enrichField_preserve "dosage" missing_fields data
            (medicine, false, []) acc1 h1 _ (Or.inl (by decide))]
      · exact ⟨ts, hts, hne2, hval⟩

/-- Witness for C7 at a concrete medicine and LLM response. -/
theorem llm_enrichment_frame_witness :
    (∀ k, k ∉ ["dosage"] → k ∉ enrichmentMetaKeys →
      dget (enrich_medicine_with_llm true
        [("medicine_name", .str "Dolo"), ("dosage", .str "Unknown")]
        ["dosage"]
        (some [("dosage", .str "650mg"), ("confidence", .str "high")])).1
          k =
        dget [("medicine_name", .str "Dolo"), ("dosage", .str "Unknown")]
          k) ∧
    (∀ k, k = "dosage" ∨ k = "frequency" →
      dget [("dosage", .str "650mg"), ("confidence", .str "high")] k =
        some (.str "Unable to determine") →
      dget (enrich_medicine_with_llm true
        [("medicine_name", .str "Dolo"), ("dosage", .str "Unknown")]
        ["dosage"]
        (some [("dosage", .str "650mg"), ("confidence", .str "high")])).1
          k =
        dget [("medicine_name", .str "Dolo"), ("dosage", .str "Unknown")]
          k) ∧
    (dget (enrich_medicine_with_llm true
        [("medicine_name", .str "Dolo"), ("dosage", .str "Unknown")]
        ["dosage"]
        (some [("dosage", .str "650mg"), ("confidence", .str "high")])).1
          "timings" ≠
        dget [("medicine_name", .str "Dolo"), ("dosage", .str "Unknown")]
          "timings" →
      ∃ ts, dget (enrich_medicine_with_llm true
          [("medicine_name", .str "Dolo"), ("dosage", .str "Unknown")]
          ["dosage"]
          (some [("dosage", .str "650mg"), ("confidence", .str "high")])).1
            "timings" = some (.vlist ts) ∧ ts ≠ [] ∧
        ∀ v ∈ ts, isValidTiming v = true) ∧
    (enrich_medicine_with_llm true
      [("medicine_name", .str "Dolo"), ("dosage", .str "Unknown")]
      ["dosage"] none =
      ([("medicine_name", .str "Dolo"), ("dosage", .str "Unknown")],
        false)) ∧
    (enrichBody [("medicine_name", .str "Dolo"), ("dosage", .str "Unknown")]
        ["dosage"]
        [("dosage", .str "650mg"), ("confidence", .str "high")] = none →
      enrich_medicine_with_llm true
        [("medicine_name", .str "Dolo"), ("dosage", .str "Unknown")]
        ["dosage"]
        (some [("dosage", .str "650mg"), ("confidence", .str "high")]) =
        ([("medicine_name", .str "Dolo"), ("dosage", .str "Unknown")],
          false)) :=
  llm_enrichment_frame
    [("medicine_name", .str "Dolo"), ("dosage", .str "Unknown")]
    ["dosage"] [("dosage", .str "650mg"), ("confidence", .str "high")]

end MediMind
